import Mathlib

/-!
Shallow embedding of the prediction-market core of the `market` repository
(domain/market.rs, domain/position.rs, domain/user.rs, domain/pricing.rs,
web/handlers/trading.rs, web/handlers/markets.rs) together with proofs about
the spec's claims.

Conventions of the embedding:
  * `f64` values (money, share counts, prices, liquidity) are modelled as `ℝ`
    (exact reals); a separate overflow-aware model is used only where a claim
    is about floating-point overflow.
  * `DateTime<Utc>` is modelled as `ℤ`; the ambient `Utc::now()` read by the
    Rust code becomes an explicit `now : ℤ` argument threaded from the caller.
  * Fallible Rust functions returning `Result<T, String>` become
    `Except String T`.
  * The database is modelled as an explicit environment record; each repository
    write the handlers perform is a separate state update, faithfully mirroring
    that the Rust handlers issue independent SQL statements with no enclosing
    transaction.  Infrastructure failure of an individual store write is
    modelled by a `Store` record of booleans, one per write performed by a
    handler.
-/

namespace Market

/-- Two-variant side enumeration (src/domain/market.rs, `MarketSide`). -/
inductive MarketSide where
  | Yes
  | No
deriving DecidableEq, Repr

/-- Display implementation for `MarketSide` (market.rs lines 23-30):
`Yes ↦ "yes"`, `No ↦ "no"`. -/
def MarketSide.toStr : MarketSide → String
  | MarketSide.Yes => "yes"
  | MarketSide.No => "no"

/-- Model of `str::to_lowercase` restricted to ASCII case folding, applied
character by character (the side tokens the parser compares against are
ASCII). -/
def strLower (s : String) : String :=
  String.mk (s.data.map Char.toLower)

instance {ε α : Type} [DecidableEq ε] [DecidableEq α] :
    DecidableEq (Except ε α) := fun a b =>
  match a, b with
  | Except.ok x, Except.ok y =>
    if h : x = y then isTrue (by rw [h])
    else isFalse (by intro hh; cases hh; exact h rfl)
  | Except.error x, Except.error y =>
    if h : x = y then isTrue (by rw [h])
    else isFalse (by intro hh; cases hh; exact h rfl)
  | Except.ok _, Except.error _ => isFalse (by intro hh; cases hh)
  | Except.error _, Except.ok _ => isFalse (by intro hh; cases hh)

/-- Parsing of a side token (market.rs `FromStr for MarketSide`, lines 32-42):
lowercase the input, accept exactly "yes" and "no". -/
def MarketSide.fromStr (s : String) : Except String MarketSide :=
  if strLower s = "yes" then Except.ok MarketSide.Yes
  else if strLower s = "no" then Except.ok MarketSide.No
  else Except.error ("Invalid market side: " ++ s)

/-- `MarketSide::opposite` (market.rs lines 15-20). -/
def MarketSide.opposite : MarketSide → MarketSide
  | MarketSide.Yes => MarketSide.No
  | MarketSide.No => MarketSide.Yes

/-- Market status enumeration (market.rs `MarketStatus`). -/
inductive MarketStatus where
  | Active
  | Closed
  | Resolved
deriving DecidableEq, Repr

/-- The `Market` record (market.rs lines 51-70).  `f64` fields are `ℝ`,
timestamps are `ℤ`. -/
structure Mkt where
  id : ℤ
  question : String
  description : Option String
  creator_id : ℤ
  oracle_id : Option ℤ
  end_date : ℤ
  closed_at : Option ℤ
  resolved : Bool
  outcome : Option Bool
  yes_pool : ℝ
  no_pool : ℝ
  q_yes : ℝ
  q_no : ℝ
  liquidity_param : ℝ
  created_at : ℤ

/-- `Market::get_oracle` (market.rs lines 132-134): the oracle defaults to the
creator when `oracle_id` is unset. -/
def Mkt.get_oracle (m : Mkt) : ℤ :=
  m.oracle_id.getD m.creator_id

/-- `Market::can_resolve_by` (market.rs lines 136-138).  Note that the source
compares the current time against `end_date` directly; it does not consult
`closed_at` or `is_closed`. -/
def Mkt.can_resolve_by (m : Mkt) (now : ℤ) (user_id : ℤ) : Bool :=
  !m.resolved && decide (m.end_date < now) && decide (m.get_oracle = user_id)

/-- `Market::is_closed` (market.rs lines 140-142): `closed_at` set, or current
time strictly past `end_date`. -/
def Mkt.is_closed (m : Mkt) (now : ℤ) : Bool :=
  m.closed_at.isSome || decide (m.end_date < now)

/-- `Market::status` (market.rs lines 144-152). -/
def Mkt.status (m : Mkt) (now : ℤ) : MarketStatus :=
  if m.resolved then MarketStatus.Resolved
  else if m.is_closed now then MarketStatus.Closed
  else MarketStatus.Active

/-- `Market::can_trade` (market.rs lines 154-156). -/
def Mkt.can_trade (m : Mkt) (now : ℤ) : Bool :=
  !m.is_closed now && !m.resolved

/-- `Market::can_resolve` (market.rs lines 158-160). -/
def Mkt.can_resolve (m : Mkt) (now : ℤ) : Bool :=
  !m.resolved && m.is_closed now

/-- `Market::resolve` (market.rs lines 162-172). -/
def Mkt.resolve (m : Mkt) (now : ℤ) (outcome : Bool) : Except String Mkt :=
  if m.resolved then Except.error "Market already resolved"
  else if !m.can_resolve now then Except.error "Market cannot be resolved yet"
  else Except.ok { m with resolved := true, outcome := some outcome }

noncomputable section

/-- The `Position` record (src/domain/position.rs lines 7-17). -/
structure Pos where
  id : ℤ
  user_id : ℤ
  market_id : ℤ
  side : MarketSide
  shares : ℝ
  avg_price : ℝ
  created_at : ℤ
  updated_at : ℤ

/-- `Position::add_shares` (position.rs lines 43-56): a non-positive quantity
is silently ignored (plain early `return`, the function has no error channel);
otherwise shares are added and the average price becomes the cost-weighted
mean, with `updated_at` refreshed. -/
def Pos.add_shares (p : Pos) (new_shares price : ℝ) (now : ℤ) : Pos :=
  if new_shares ≤ 0 then p
  else
    let total_cost := p.shares * p.avg_price + new_shares * price
    let shares1 := p.shares + new_shares
    { p with
      shares := shares1
      avg_price := if 0 < shares1 then total_cost / shares1 else 0
      updated_at := now }

/-- `Position::remove_shares` (position.rs lines 59-66): fails when asked to
remove more shares than held, otherwise decrements `shares` and refreshes
`updated_at`; `avg_price` is not touched. -/
def Pos.remove_shares (p : Pos) (shares_to_remove : ℝ) (now : ℤ) :
    Except String Pos :=
  if p.shares < shares_to_remove then
    Except.error "Cannot remove more shares than held"
  else
    Except.ok { p with shares := p.shares - shares_to_remove, updated_at := now }

/-- `Position::payout_if_wins` (position.rs lines 79-81): one unit of currency
per share. -/
def Pos.payout_if_wins (p : Pos) : ℝ :=
  p.shares

/-- The `User` record restricted to what the trading core touches
(src/domain/user.rs). -/
structure Usr where
  id : ℤ
  balance : ℝ

/-- `User::can_afford` (user.rs lines 26-28): `balance >= amount`. -/
abbrev Usr.can_afford (u : Usr) (amount : ℝ) : Prop :=
  amount ≤ u.balance

/-- LMSR cost function over exact reals (src/domain/pricing.rs lines 22-26):
`C(q) = b * ln(e^(q_yes/b) + e^(q_no/b))`.  The source exponentiates the raw
quotients directly; there is no max-subtraction. -/
def LmsrPricing.cost_function (q_yes q_no b : ℝ) : ℝ :=
  let exp_yes := Real.exp (q_yes / b)
  let exp_no := Real.exp (q_no / b)
  b * Real.log (exp_yes + exp_no)

/-- `LmsrPricing::calculate_buy_cost` (pricing.rs lines 39-71). -/
def LmsrPricing.calculate_buy_cost (q_yes q_no shares : ℝ) (side : MarketSide)
    (b : ℝ) : Except String ℝ :=
  if shares ≤ 0 then Except.error "Shares must be positive"
  else if b ≤ 0 then Except.error "Liquidity parameter must be positive"
  else
    let cost_before := LmsrPricing.cost_function q_yes q_no b
    let cost_after :=
      match side with
      | MarketSide.Yes => LmsrPricing.cost_function (q_yes + shares) q_no b
      | MarketSide.No => LmsrPricing.cost_function q_yes (q_no + shares) b
    let cost := cost_after - cost_before
    if cost < 0 then Except.error "Invalid calculation resulted in negative cost"
    else Except.ok cost

/-- `LmsrPricing::calculate_sell_proceeds` (pricing.rs lines 84-126).  The
supply check compares the amount sold against the chosen side's aggregate
outstanding count. -/
def LmsrPricing.calculate_sell_proceeds (q_yes q_no shares : ℝ)
    (side : MarketSide) (b : ℝ) : Except String ℝ :=
  if shares ≤ 0 then Except.error "Shares must be positive"
  else if b ≤ 0 then Except.error "Liquidity parameter must be positive"
  else
    let current_shares :=
      match side with
      | MarketSide.Yes => q_yes
      | MarketSide.No => q_no
    if current_shares < shares then Except.error "Not enough shares to sell"
    else
      let cost_before := LmsrPricing.cost_function q_yes q_no b
      let cost_after :=
        match side with
        | MarketSide.Yes => LmsrPricing.cost_function (q_yes - shares) q_no b
        | MarketSide.No => LmsrPricing.cost_function q_yes (q_no - shares) b
      let proceeds := cost_before - cost_after
      if proceeds < 0 then
        Except.error "Invalid calculation resulted in negative proceeds"
      else Except.ok proceeds

/-- `LmsrPricing::implied_probability` (pricing.rs lines 131-135), again with
raw exponentials. -/
def LmsrPricing.implied_probability (q_yes q_no b : ℝ) : ℝ :=
  let exp_yes := Real.exp (q_yes / b)
  let exp_no := Real.exp (q_no / b)
  exp_yes / (exp_yes + exp_no)

/-- `LmsrPricing::instantaneous_price` (pricing.rs lines 139-147). -/
def LmsrPricing.instantaneous_price (q_yes q_no : ℝ) (side : MarketSide)
    (b : ℝ) : ℝ :=
  LmsrPricing.implied_probability q_yes q_no b *
      (match side with
        | MarketSide.Yes => (1 : ℝ)
        | MarketSide.No => 0) +
    (1 - LmsrPricing.implied_probability q_yes q_no b) *
      (match side with
        | MarketSide.Yes => (0 : ℝ)
        | MarketSide.No => 1)

/-- Overflow threshold of IEEE-754 double-precision `exp`: `(709.782712893384
: f64).exp()` is the largest finite value reachable; any argument beyond it
overflows to `+inf`. -/
def expOverflowBound : ℝ := 709.782712893384

/-- Finiteness-tracking model of `f64::exp` as used by pricing.rs: the result
is the exact real exponential while the argument stays below the overflow
threshold, and `none` (standing for `+inf`, hence a non-finite downstream
result) beyond it.  Rounding is not modelled; only overflow is. -/
def floatExp (x : ℝ) : Option ℝ :=
  if x ≤ expOverflowBound then some (Real.exp x) else none

/-- `LmsrPricing::cost_function` exactly as written in pricing.rs lines 22-26
but with the overflow-aware exponential: both `(q_yes / b).exp()` and
`(q_no / b).exp()` are taken on the raw quotients, with no rescaling, so the
result is non-finite (`none`) as soon as either quotient exceeds the `exp`
overflow threshold. -/
def cost_function_float (q_yes q_no b : ℝ) : Option ℝ :=
  (floatExp (q_yes / b)).bind fun exp_yes =>
    (floatExp (q_no / b)).map fun exp_no => b * Real.log (exp_yes + exp_no)

/-- `LmsrPricing::implied_probability` (pricing.rs lines 131-135) with the
overflow-aware exponential, mirroring that the source exponentiates the raw
quotients. -/
def implied_probability_float (q_yes q_no b : ℝ) : Option ℝ :=
  (floatExp (q_yes / b)).bind fun exp_yes =>
    (floatExp (q_no / b)).map fun exp_no => exp_yes / (exp_yes + exp_no)

/-- Modelled from the spec: the log-sum-exp-style stabilization the spec's
numerical note requires ("subtract the max exponent before exponentiating"),
which is absent from pricing.rs.  With the maximum subtracted, both arguments
of the exponential are at most `0`, so the computation never overflows. -/
def cost_function_stabilized (q_yes q_no b : ℝ) : Option ℝ :=
  let m := max (q_yes / b) (q_no / b)
  (floatExp (q_yes / b - m)).bind fun exp_yes =>
    (floatExp (q_no / b - m)).map fun exp_no =>
      b * (m + Real.log (exp_yes + exp_no))

/-- The `PriceSnapshot` row as created by the buy/sell handlers
(src/domain/price_snapshot.rs, price_snapshot_repo.rs `create`); the
store-assigned `id` is omitted. -/
structure Snap where
  market_id : ℤ
  yes_probability : ℝ
  no_probability : ℝ
  q_yes : ℝ
  q_no : ℝ
  created_at : ℤ

/-- The form body of a trade request (trading.rs `TradeForm`): a share count
and a raw side string. -/
structure TradeForm where
  shares : ℝ
  side : String

/-- Database state visible to one trade request: the market addressed by the
request path, the authenticated user's balance row, the positions table, the
price-snapshot table, the current wall-clock time and the next fresh position
row id. -/
structure Env where
  market : Mkt
  user : Usr
  positions : List Pos
  snapshots : List Snap
  now : ℤ
  next_pos_id : ℤ

/-- Availability of each individual store write a handler performs.  The Rust
handlers issue these as independent SQL statements; any one of them can fail
(connection loss, disk error) while the earlier ones have already committed. -/
structure Store where
  deduct_ok : Bool
  add_ok : Bool
  update_shares_ok : Bool
  snapshot_ok : Bool
  find_pos_ok : Bool
  update_pos_ok : Bool

/-- The store with every write available. -/
def Store.all_ok : Store :=
  { deduct_ok := true, add_ok := true, update_shares_ok := true,
    snapshot_ok := true, find_pos_ok := true, update_pos_ok := true }

/-- `PositionRepository::find_by_user_market_side` (position_repo.rs lines
62-101): the row keyed by (user, market, side), if present. -/
def find_by_user_market_side (ps : List Pos) (user_id market_id : ℤ)
    (side : MarketSide) : Option Pos :=
  ps.find? fun p =>
    decide (p.user_id = user_id) && decide (p.market_id = market_id) &&
      decide (p.side = side)

/-- `PositionRepository::update` (position_repo.rs lines 178-204): write
`shares`, `avg_price` and a fresh `updated_at` on the row with the given id. -/
def position_repo_update (ps : List Pos) (id : ℤ) (shares avg_price : ℝ)
    (now : ℤ) : List Pos :=
  ps.map fun p =>
    if p.id = id then
      { p with shares := shares, avg_price := avg_price, updated_at := now }
    else p

/-- Shared tail of the buy handler (trading.rs lines 114-128): apply
`Position::add_shares` at the effective per-share price and persist the result
through `PositionRepository::update`. -/
def commit_position (env : Env) (position : Pos) (shares cost : ℝ)
    (fs : Store) : Except String Unit × Env :=
  let price_per_share := cost / shares
  let position1 := position.add_shares shares price_per_share env.now
  if !fs.update_pos_ok then
    (Except.error "Error updating position: store unavailable", env)
  else if !(env.positions.any fun p => decide (p.id = position1.id)) then
    (Except.error "Error updating position: not found", env)
  else
    (Except.ok (),
      { env with
        positions := position_repo_update env.positions position1.id
          position1.shares position1.avg_price env.now })

/-- The buy handler `buy_shares` (trading.rs lines 42-129).  Mirrors the
source statement by statement: validation and pricing first, then the
sequence of separate store writes — balance debit, outstanding-share update,
snapshot append (result discarded via `let _ =`), position upsert.  The
returned environment is whatever state the store holds when the handler
returns, including the error returns after some writes have committed. -/
def buy_shares (env : Env) (market_id : ℤ) (form : TradeForm) (fs : Store) :
    Except String Unit × Env :=
  if form.shares ≤ 0 then (Except.error "Shares must be positive", env)
  else
    match MarketSide.fromStr form.side with
    | Except.error e => (Except.error ("Invalid side: " ++ e), env)
    | Except.ok side =>
      if market_id ≠ env.market.id then (Except.error "Market not found", env)
      else if !env.market.can_trade env.now then
        (Except.error "Market is not open for trading", env)
      else
        match LmsrPricing.calculate_buy_cost env.market.q_yes env.market.q_no
            form.shares side env.market.liquidity_param with
        | Except.error e =>
            (Except.error ("Error calculating cost: " ++ e), env)
        | Except.ok cost =>
          if ¬ env.user.can_afford cost then
            (Except.error "Insufficient balance", env)
          else if !fs.deduct_ok then
            (Except.error "Error deducting balance: store unavailable", env)
          else if env.user.balance < cost then
            (Except.error "Error deducting balance: Insufficient balance", env)
          else
            let env1 :=
              { env with user := { env.user with balance := env.user.balance - cost } }
            let qs : ℝ × ℝ :=
              match side with
              | MarketSide.Yes => (env.market.q_yes + form.shares, env.market.q_no)
              | MarketSide.No => (env.market.q_yes, env.market.q_no + form.shares)
            if !fs.update_shares_ok then
              (Except.error "Error updating outstanding shares: store unavailable", env1)
            else
              let env2 :=
                { env1 with market := { env1.market with q_yes := qs.1, q_no := qs.2 } }
              let new_probability :=
                LmsrPricing.implied_probability qs.1 qs.2 env.market.liquidity_param
              let env3 :=
                if fs.snapshot_ok then
                  { env2 with snapshots := env2.snapshots ++
                    [{ market_id := market_id, yes_probability := new_probability,
                       no_probability := 1 - new_probability, q_yes := qs.1,
                       q_no := qs.2, created_at := env.now }] }
                else env2
              if !fs.find_pos_ok then
                (Except.error "Error getting position: store unavailable", env3)
              else
                match find_by_user_market_side env3.positions env.user.id
                    market_id side with
                | some position => commit_position env3 position form.shares cost fs
                | none =>
                    let created : Pos :=
                      { id := env3.next_pos_id, user_id := env.user.id,
                        market_id := market_id, side := side, shares := 0,
                        avg_price := 0, created_at := env.now, updated_at := env.now }
                    let env4 :=
                      { env3 with
                        positions := env3.positions ++ [created]
                        next_pos_id := env3.next_pos_id + 1 }
                    commit_position env4 created form.shares cost fs

/-- The sell handler `sell_shares` (trading.rs lines 131-213), statement by
statement, with the same separate-store-write model as `buy_shares`. -/
def sell_shares (env : Env) (market_id : ℤ) (form : TradeForm) (fs : Store) :
    Except String Unit × Env :=
  if form.shares ≤ 0 then (Except.error "Shares must be positive", env)
  else
    match MarketSide.fromStr form.side with
    | Except.error e => (Except.error ("Invalid side: " ++ e), env)
    | Except.ok side =>
      if market_id ≠ env.market.id then (Except.error "Market not found", env)
      else if !env.market.can_trade env.now then
        (Except.error "Market is not open for trading", env)
      else
        match find_by_user_market_side env.positions env.user.id market_id side with
        | none => (Except.error "Position not found", env)
        | some position =>
          if position.shares < form.shares then
            (Except.error "Insufficient shares to sell", env)
          else
            match LmsrPricing.calculate_sell_proceeds env.market.q_yes
                env.market.q_no form.shares side env.market.liquidity_param with
            | Except.error e =>
                (Except.error ("Error calculating proceeds: " ++ e), env)
            | Except.ok proceeds =>
              if !fs.add_ok then
                (Except.error "Error adding balance: store unavailable", env)
              else
                let env1 :=
                  { env with user := { env.user with balance := env.user.balance + proceeds } }
                let qs : ℝ × ℝ :=
                  match side with
                  | MarketSide.Yes => (env.market.q_yes - form.shares, env.market.q_no)
                  | MarketSide.No => (env.market.q_yes, env.market.q_no - form.shares)
                if !fs.update_shares_ok then
                  (Except.error "Error updating outstanding shares: store unavailable", env1)
                else
                  let env2 :=
                    { env1 with market := { env1.market with q_yes := qs.1, q_no := qs.2 } }
                  let new_probability :=
                    LmsrPricing.implied_probability qs.1 qs.2 env.market.liquidity_param
                  let env3 :=
                    if fs.snapshot_ok then
                      { env2 with snapshots := env2.snapshots ++
                        [{ market_id := market_id, yes_probability := new_probability,
                           no_probability := 1 - new_probability, q_yes := qs.1,
                           q_no := qs.2, created_at := env.now }] }
                    else env2
                  match position.remove_shares form.shares env.now with
                  | Except.error e =>
                      (Except.error ("Error removing shares: " ++ e), env3)
                  | Except.ok position1 =>
                    if !fs.update_pos_ok then
                      (Except.error "Error updating position: store unavailable", env3)
                    else if !(env3.positions.any fun p => decide (p.id = position1.id)) then
                      (Except.error "Error updating position: not found", env3)
                    else
                      (Except.ok (),
                        { env3 with
                          positions := position_repo_update env3.positions
                            position1.id position1.shares position1.avg_price env.now })

/-- The database state settlement touches: the balances table and the
positions table. -/
structure PayoutEnv where
  balances : ℤ → ℝ
  positions : List Pos

/-- The winning side derived from the resolved outcome (markets.rs lines
326-330). -/
def winning_side (outcome : Bool) : MarketSide :=
  if outcome then MarketSide.Yes else MarketSide.No

/-- The `for position in positions` loop of `process_payouts` (markets.rs
lines 333-344): each position on the winning side with positive shares has its
owner's balance credited with `payout_if_wins`; a failing credit makes the
function return that error immediately (the `?` operator inside the loop),
with the credits performed so far already committed.  `credit_ok` models the
availability of the `add_balance` store write per user. -/
def payout_loop (winning : MarketSide) (credit_ok : ℤ → Bool) :
    List Pos → PayoutEnv → Except String Unit × PayoutEnv
  | [], st => (Except.ok (), st)
  | p :: rest, st =>
    if p.side = winning ∧ 0 < p.shares then
      if credit_ok p.user_id then
        payout_loop winning credit_ok rest
          { st with
            balances := Function.update st.balances p.user_id
                (st.balances p.user_id + p.payout_if_wins) }
      else
        (Except.error ("Error adding payout to user " ++ toString p.user_id ++
          ": store unavailable"), st)
    else payout_loop winning credit_ok rest st

/-- `process_payouts` (markets.rs lines 314-347): fetch the market's positions
with positive shares (`PositionRepository::find_by_market` filters
`shares > 0` in SQL) and run the payout loop over them. -/
def process_payouts (st : PayoutEnv) (market_id : ℤ) (outcome : Bool)
    (credit_ok : ℤ → Bool) : Except String Unit × PayoutEnv :=
  let positions := st.positions.filter fun p =>
    decide (p.market_id = market_id) && decide (0 < p.shares)
  payout_loop (winning_side outcome) credit_ok positions st

/-- Total payout owed to user `u` on settlement: the summed share counts of
`u`'s positive positions on the winning side of the market. -/
def winning_payout_total (ps : List Pos) (market_id : ℤ) (outcome : Bool)
    (u : ℤ) : ℝ :=
  ((ps.filter fun p =>
      decide (p.market_id = market_id) && decide (0 < p.shares) &&
        decide (p.side = winning_side outcome) && decide (p.user_id = u)).map
    Pos.payout_if_wins).sum

/-- Discriminator for `Result::is_ok` on the embedded `Result<T, String>`. -/
def exOk {ε α : Type} : Except ε α → Bool
  | Except.ok _ => true
  | Except.error _ => false

/-- The side's aggregate outstanding count, as selected by the
`current_shares` match of `calculate_sell_proceeds` (pricing.rs lines
99-102). -/
def side_q (m : Mkt) : MarketSide → ℝ
  | MarketSide.Yes => m.q_yes
  | MarketSide.No => m.q_no

/-- Post-buy outstanding counts, as computed by the buy handler (trading.rs
lines 97-100). -/
def post_buy_qs (q_yes q_no shares : ℝ) : MarketSide → ℝ × ℝ
  | MarketSide.Yes => (q_yes + shares, q_no)
  | MarketSide.No => (q_yes, q_no + shares)

/-- Sample market used by concrete instances: open for trading at `now = 5`
(ends at `10`, not closed, not resolved), oracle defaulting to creator `1`,
with the given outstanding counts and liquidity. -/
def sampleMkt (qy qn b : ℝ) : Mkt :=
  { id := 1, question := "will it rain tomorrow", description := none,
    creator_id := 1, oracle_id := none, end_date := 10, closed_at := none,
    resolved := false, outcome := none, yes_pool := 0, no_pool := 0,
    q_yes := qy, q_no := qn, liquidity_param := b, created_at := 0 }

/-- Sample market that was administratively closed (`closed_at` set) before
its end date: at `now = 7` its status is `Closed` via `closed_at` while
`end_date = 10` is still in the future. -/
def closedEarlyMkt : Mkt :=
  { sampleMkt 0 0 100 with closed_at := some 5 }

/-- Sample YES position of user `7` on market `1`. -/
def samplePos (sh av : ℝ) : Pos :=
  { id := 4, user_id := 7, market_id := 1, side := MarketSide.Yes,
    shares := sh, avg_price := av, created_at := 0, updated_at := 0 }

/-- Sample trade environment: the sample market, user `7` with the given
balance, one sample YES position, empty snapshot table, `now = 5`. -/
def sampleEnv (qy qn b sh av bal : ℝ) : Env :=
  { market := sampleMkt qy qn b, user := { id := 7, balance := bal },
    positions := [samplePos sh av], snapshots := [], now := 5,
    next_pos_id := 11 }

/-- Sample trade environment with no pre-existing positions. -/
def sampleEnvNoPos (qy qn b bal : ℝ) : Env :=
  { market := sampleMkt qy qn b, user := { id := 7, balance := bal },
    positions := [], snapshots := [], now := 5, next_pos_id := 11 }

/-- Sample position row on market `1` for the settlement instances. -/
def payPos (i u : ℤ) (side : MarketSide) (sh : ℝ) : Pos :=
  { id := i, user_id := u, market_id := 1, side := side, shares := sh,
    avg_price := 1/2, created_at := 0, updated_at := 0 }

/-- Settlement environment with two winning YES positions held by users `2`
and `3`, all balances zero. -/
def payoutEnvTwoWinners : PayoutEnv :=
  { balances := fun _ => 0,
    positions := [payPos 1 2 MarketSide.Yes 5, payPos 2 3 MarketSide.Yes 7] }

/-- Settlement environment with a YES winner (user `2`) and a NO loser
(user `3`), all balances zero. -/
def payoutEnvMixed : PayoutEnv :=
  { balances := fun _ => 0,
    positions := [payPos 1 2 MarketSide.Yes 5, payPos 2 3 MarketSide.No 7] }

/-- Credit availability where the balance write for user `2` fails and every
other one succeeds. -/
def creditFailsUser2 : ℤ → Bool :=
  fun u => !(decide (u = 2))

end

/-- Monotonicity of the LMSR cost function in its first argument. -/
theorem cost_function_mono_left {b : ℝ} (hb : 0 < b) {x y q : ℝ} (h : x ≤ y) :
    LmsrPricing.cost_function x q b ≤ LmsrPricing.cost_function y q b := by
  unfold LmsrPricing.cost_function
  have hpos : 0 < Real.exp (x / b) + Real.exp (q / b) := by positivity
  have hsum : Real.exp (x / b) + Real.exp (q / b) ≤
      Real.exp (y / b) + Real.exp (q / b) :=
    add_le_add_right (Real.exp_le_exp.mpr ((div_le_div_iff_of_pos_right hb).mpr h)) _
  exact mul_le_mul_of_nonneg_left (Real.log_le_log hpos hsum) hb.le

/-- Strict monotonicity of the LMSR cost function in its first argument. -/
theorem cost_function_strictMono_left {b : ℝ} (hb : 0 < b) {x y q : ℝ}
    (h : x < y) :
    LmsrPricing.cost_function x q b < LmsrPricing.cost_function y q b := by
  unfold LmsrPricing.cost_function
  have hpos : 0 < Real.exp (x / b) + Real.exp (q / b) := by positivity
  have hsum : Real.exp (x / b) + Real.exp (q / b) <
      Real.exp (y / b) + Real.exp (q / b) :=
    add_lt_add_right (Real.exp_lt_exp.mpr ((div_lt_div_iff_of_pos_right hb).mpr h)) _
  exact mul_lt_mul_of_pos_left (Real.log_lt_log hpos hsum) hb

/-- Monotonicity of the LMSR cost function in its second argument. -/
theorem cost_function_mono_right {b : ℝ} (hb : 0 < b) {x y q : ℝ} (h : x ≤ y) :
    LmsrPricing.cost_function q x b ≤ LmsrPricing.cost_function q y b := by
  unfold LmsrPricing.cost_function
  have hpos : 0 < Real.exp (q / b) + Real.exp (x / b) := by positivity
  have hsum : Real.exp (q / b) + Real.exp (x / b) ≤
      Real.exp (q / b) + Real.exp (y / b) :=
    add_le_add_left (Real.exp_le_exp.mpr ((div_le_div_iff_of_pos_right hb).mpr h)) _
  exact mul_le_mul_of_nonneg_left (Real.log_le_log hpos hsum) hb.le

/-- Buying `n` shares never costs more than `n` units of currency: moving one
coordinate of the LMSR cost function up by `n` raises it by at most `n`. -/
theorem cost_function_add_le {b : ℝ} (hb : 0 < b) {x q : ℝ} {n : ℝ}
    (hn : 0 ≤ n) :
    LmsrPricing.cost_function (x + n) q b ≤
      n + LmsrPricing.cost_function x q b := by
  unfold LmsrPricing.cost_function
  have hx : 0 < Real.exp (x / b) + Real.exp (q / b) := by positivity
  have hxn : 0 < Real.exp ((x + n) / b) + Real.exp (q / b) := by positivity
  have hone : 1 ≤ Real.exp (n / b) := Real.one_le_exp (by positivity)
  have hmul : Real.exp ((x + n) / b) + Real.exp (q / b) ≤
      Real.exp (n / b) * (Real.exp (x / b) + Real.exp (q / b)) := by
    have hsplit : Real.exp ((x + n) / b) = Real.exp (n / b) * Real.exp (x / b) := by
      rw [← Real.exp_add, ← add_div, add_comm n x]
    rw [hsplit, mul_add]
    have : Real.exp (q / b) ≤ Real.exp (n / b) * Real.exp (q / b) :=
      le_mul_of_one_le_left (Real.exp_pos _).le hone
    linarith
  have hlog : Real.log (Real.exp ((x + n) / b) + Real.exp (q / b)) ≤
      n / b + Real.log (Real.exp (x / b) + Real.exp (q / b)) := by
    have h1 := Real.log_le_log hxn hmul
    rwa [Real.log_mul (Real.exp_pos _).ne' hx.ne', Real.log_exp] at h1
  calc b * Real.log (Real.exp ((x + n) / b) + Real.exp (q / b))
      ≤ b * (n / b + Real.log (Real.exp (x / b) + Real.exp (q / b))) :=
        mul_le_mul_of_nonneg_left hlog hb.le
    _ = n + b * Real.log (Real.exp (x / b) + Real.exp (q / b)) := by
        field_simp
        ring

/-- C2 as stated is false: `can_resolve_by` compares the current time against
`end_date` only, so a market whose status is `Closed` because `closed_at` is
set (with `end_date` still in the future) is not resolvable by its oracle.
Concretely, at `now = 7` the sample market closed at `5` with `end_date = 10`
has status `Closed`, is unresolved, and user `1` is its oracle, yet
`can_resolve_by` returns `false`. -/
theorem C2_counterexample :
    ¬ ((closedEarlyMkt.can_resolve_by 7 1 = true) ↔
      (closedEarlyMkt.resolved = false ∧
        closedEarlyMkt.status 7 = MarketStatus.Closed ∧
        closedEarlyMkt.get_oracle = 1)) := by
  decide

/-- C2 amended: `canResolveBy(u)` is true iff the market is not resolved, the
current time is strictly past `end_date` (an administrative `closed_at` is
ignored), and `u` is the oracle (defaulting to the creator). -/
theorem C2_can_resolve_by_iff (m : Mkt) (now u : ℤ) :
    m.can_resolve_by now u = true ↔
      (m.resolved = false ∧ m.end_date < now ∧ m.get_oracle = u) := by
  simp [Mkt.can_resolve_by, and_assoc]

/-- C9: side parsing is case-insensitive and round-trips with display: each
side's display string parses back to itself, and a string parses successfully
exactly when its lowercase form is "yes" or "no", so no third side value can
enter from the boundary. -/
theorem C9_side_parse_round_trip :
    (∀ s : MarketSide, MarketSide.fromStr (MarketSide.toStr s) = Except.ok s) ∧
      (∀ str : String, exOk (MarketSide.fromStr str) =
        (strLower str == "yes" || strLower str == "no")) := by
  constructor
  · intro s
    cases s <;> decide
  · intro str
    by_cases h1 : strLower str = "yes" <;> by_cases h2 : strLower str = "no" <;>
      simp [MarketSide.fromStr, exOk, h1, h2]

/-- C10: `Position::add_shares` with a non-positive quantity is a silent
no-op: the returned position is unchanged in every field (including
`avg_price` and `updated_at`), and the function has no error channel. -/
theorem C10_add_shares_nonpositive_noop (p : Pos) (new_shares price : ℝ)
    (now : ℤ) (h : new_shares ≤ 0) :
    p.add_shares new_shares price now = p := by
  unfold Pos.add_shares
  rw [if_pos h]

/-- Witness for C10 at a concrete position and `new_shares = -1`. -/
theorem C10_witness :
    ((-1 : ℝ) ≤ 0) ∧
      (samplePos 10 (1/2)).add_shares (-1) (3/4) 99 = samplePos 10 (1/2) :=
  ⟨by norm_num,
    C10_add_shares_nonpositive_noop (samplePos 10 (1/2)) (-1) (3/4) 99
      (by norm_num)⟩

/-- C5 is false of the code: `cost_function` and `implied_probability`
exponentiate the raw quotients `q/b` with no max-subtraction, so for
`q_yes/b = 1000000` the exponential overflows and the results are non-finite,
while the stabilization the spec requires stays finite on the same input. -/
theorem C5_no_overflow_guard :
    cost_function_float 1000000 0 1 = none ∧
      implied_probability_float 1000000 0 1 = none ∧
      (cost_function_stabilized 1000000 0 1).isSome = true := by
  refine ⟨?_, ?_, ?_⟩ <;>
    norm_num [cost_function_float, implied_probability_float,
      cost_function_stabilized, floatExp, expOverflowBound]

/-- C4 is false of the code: the payout loop propagates the first failed
credit with `?`, aborting the rest of the run.  Concretely, with two winning
YES positions (user `2` with 5 shares, then user `3` with 7 shares) and the
balance write for user `2` unavailable, resolution reports only that one
error and user `3` — whose credit would have succeeded — is never paid. -/
theorem C4_payout_abort_demo :
    (process_payouts payoutEnvTwoWinners 1 true creditFailsUser2).1 =
        Except.error "Error adding payout to user 2: store unavailable" ∧
      (process_payouts payoutEnvTwoWinners 1 true creditFailsUser2).2.balances 3 =
        payoutEnvTwoWinners.balances 3 := by
  refine ⟨?_, ?_⟩ <;>
    norm_num [process_payouts, payout_loop, payoutEnvTwoWinners, payPos,
      winning_side, creditFailsUser2, Pos.payout_if_wins]
  decide

/-- C7: for non-negative outstanding counts, positive share count and
positive liquidity, `calculate_buy_cost` succeeds, and
`calculate_sell_proceeds` on the post-buy counts for the same share count and
side succeeds with exactly the cost paid (exact reals, so the spec's 1e-6
tolerance is met with equality). -/
theorem C7_buy_sell_round_trip (q_yes q_no shares b : ℝ) (side : MarketSide)
    (hqy : 0 ≤ q_yes) (hqn : 0 ≤ q_no) (hs : 0 < shares) (hb : 0 < b) :
    exOk (LmsrPricing.calculate_buy_cost q_yes q_no shares side b) = true ∧
      LmsrPricing.calculate_sell_proceeds (post_buy_qs q_yes q_no shares side).1
          (post_buy_qs q_yes q_no shares side).2 shares side b =
        LmsrPricing.calculate_buy_cost q_yes q_no shares side b := by
  have h1 : ¬ (shares ≤ 0) := not_le.mpr hs
  have h2 : ¬ (b ≤ 0) := not_le.mpr hb
  cases side with
  | Yes =>
    have hmono : LmsrPricing.cost_function q_yes q_no b ≤
        LmsrPricing.cost_function (q_yes + shares) q_no b :=
      cost_function_mono_left hb (by linarith)
    have h3 : ¬ (LmsrPricing.cost_function (q_yes + shares) q_no b -
        LmsrPricing.cost_function q_yes q_no b < 0) := by linarith
    have h4 : ¬ (q_yes + shares < shares) := by linarith
    simp only [LmsrPricing.calculate_buy_cost, LmsrPricing.calculate_sell_proceeds,
      post_buy_qs, if_neg h1, if_neg h2, add_sub_cancel_right, if_neg h4,
      if_neg h3, exOk]
    exact ⟨by decide, trivial⟩
  | No =>
    have hmono : LmsrPricing.cost_function q_yes q_no b ≤
        LmsrPricing.cost_function q_yes (q_no + shares) b :=
      cost_function_mono_right hb (by linarith)
    have h3 : ¬ (LmsrPricing.cost_function q_yes (q_no + shares) b -
        LmsrPricing.cost_function q_yes q_no b < 0) := by linarith
    have h4 : ¬ (q_no + shares < shares) := by linarith
    simp only [LmsrPricing.calculate_buy_cost, LmsrPricing.calculate_sell_proceeds,
      post_buy_qs, if_neg h1, if_neg h2, add_sub_cancel_right, if_neg h4,
      if_neg h3, exOk]
    exact ⟨by decide, trivial⟩

/-- Witness for C7 at `q_yes = 1`, `q_no = 2`, `shares = 3`, `b = 1`,
side YES. -/
theorem C7_witness :
    ((0:ℝ) ≤ 1) ∧ ((0:ℝ) ≤ 2) ∧ ((0:ℝ) < 3) ∧ ((0:ℝ) < 1) ∧
      (exOk (LmsrPricing.calculate_buy_cost 1 2 3 MarketSide.Yes 1) = true ∧
        LmsrPricing.calculate_sell_proceeds
            (post_buy_qs 1 2 3 MarketSide.Yes).1
            (post_buy_qs 1 2 3 MarketSide.Yes).2 3 MarketSide.Yes 1 =
          LmsrPricing.calculate_buy_cost 1 2 3 MarketSide.Yes 1) :=
  ⟨by norm_num, by norm_num, by norm_num, by norm_num,
    C7_buy_sell_round_trip 1 2 3 1 MarketSide.Yes (by norm_num) (by norm_num)
      (by norm_num) (by norm_num)⟩

/-- Balances after a payout loop that ran to completion: every winning
position's shares were credited to its owner, and the positions table was not
touched. -/
theorem payout_loop_ok_balances (winning : MarketSide) (credit_ok : ℤ → Bool)
    (ps : List Pos) (st : PayoutEnv) (u : ℤ)
    (h : (payout_loop winning credit_ok ps st).1 = Except.ok ()) :
    (payout_loop winning credit_ok ps st).2.balances u =
      st.balances u +
        ((ps.filter fun p => decide (p.side = winning) && decide (0 < p.shares)
            && decide (p.user_id = u)).map Pos.payout_if_wins).sum ∧
      (payout_loop winning credit_ok ps st).2.positions = st.positions := by
  induction ps generalizing st with
  | nil => simp [payout_loop]
  | cons p rest ih =>
    by_cases hw : p.side = winning ∧ 0 < p.shares
    · by_cases hc : credit_ok p.user_id = true
      · simp only [payout_loop, if_pos hw, hc, if_true] at h ⊢
        obtain ⟨hb, hp⟩ := ih _ h
        refine ⟨?_, hp⟩
        rw [hb]
        by_cases hu : p.user_id = u
        · subst hu
          simp [Function.update_same, hw.1, hw.2, Pos.payout_if_wins,
            List.filter_cons]
          ring
        · simp [Function.update_noteq (fun hh => hu hh.symm), hu, hw.1, hw.2,
            List.filter_cons]
      · simp only [payout_loop, if_pos hw, hc, if_false] at h
        simp at h
    · simp only [payout_loop, if_neg hw] at h ⊢
      obtain ⟨hb, hp⟩ := ih _ h
      refine ⟨?_, hp⟩
      rw [hb]
      have hfalse : (decide (p.side = winning) && decide (0 < p.shares) &&
          decide (p.user_id = u)) = false := by
        rcases not_and_or.mp hw with h1 | h1 <;> simp [h1]
      simp [List.filter_cons, hfalse]

/-- Composing the `find_by_market` filter with the per-user winning filter
gives the single filter used by `winning_payout_total`. -/
theorem filter_filter_payout (l : List Pos) (market_id u : ℤ)
    (w : MarketSide) :
    ((l.filter fun p => decide (p.market_id = market_id) &&
          decide (0 < p.shares)).filter fun p =>
        decide (p.side = w) && decide (0 < p.shares) &&
          decide (p.user_id = u)) =
      l.filter fun p => decide (p.market_id = market_id) &&
        decide (0 < p.shares) && decide (p.side = w) &&
          decide (p.user_id = u) := by
  rw [List.filter_filter]
  congr 1
  funext p
  by_cases h1 : p.market_id = market_id <;> by_cases h2 : 0 < p.shares <;>
    by_cases h3 : p.side = w <;> by_cases h4 : p.user_id = u <;>
      simp [h1, h2, h3, h4]

/-- C3: when `process_payouts` returns success for a market resolved with the
given outcome, every owner's balance has been credited with exactly the total
shares of their positive positions on the winning side (so each winning
position with `shares = S > 0` contributes exactly `S`, and losing positions
contribute nothing), and no position row was modified. -/
theorem C3_settlement_credits_winners (st : PayoutEnv) (market_id : ℤ)
    (outcome : Bool) (credit_ok : ℤ → Bool) (u : ℤ)
    (h : (process_payouts st market_id outcome credit_ok).1 = Except.ok ()) :
    (process_payouts st market_id outcome credit_ok).2.balances u =
        st.balances u + winning_payout_total st.positions market_id outcome u ∧
      (process_payouts st market_id outcome credit_ok).2.positions =
        st.positions := by
  unfold process_payouts at h ⊢
  obtain ⟨hb, hp⟩ := payout_loop_ok_balances (winning_side outcome) credit_ok
    (st.positions.filter fun p => decide (p.market_id = market_id) &&
      decide (0 < p.shares)) st u h
  refine ⟨?_, hp⟩
  rw [hb]
  unfold winning_payout_total
  rw [filter_filter_payout]

/-- Witness for C3: a YES resolution over one winning YES position (user 2,
5 shares) and one losing NO position (user 3, 7 shares), with every credit
available. -/
theorem C3_witness :
    (process_payouts payoutEnvMixed 1 true (fun _ => true)).1 = Except.ok () ∧
      ((process_payouts payoutEnvMixed 1 true (fun _ => true)).2.balances 2 =
          payoutEnvMixed.balances 2 +
            winning_payout_total payoutEnvMixed.positions 1 true 2 ∧
        (process_payouts payoutEnvMixed 1 true (fun _ => true)).2.positions =
          payoutEnvMixed.positions) := by
  have h : (process_payouts payoutEnvMixed 1 true (fun _ => true)).1 =
      Except.ok () := by
    norm_num [process_payouts, payout_loop, payoutEnvMixed, payPos,
      winning_side]
    rw [if_neg (by decide : ¬ (MarketSide.No = MarketSide.Yes))]
  exact ⟨h, C3_settlement_credits_winners payoutEnvMixed 1 true
    (fun _ => true) 2 h⟩

/-- C8: a successful sell of `N` shares leaves the positions table equal to
the original with the sold position's row updated to `shares - N` and a fresh
`updated_at`, while its `avg_price` (and every other field, and every other
row) is unchanged. -/
theorem C8_sell_keeps_avg_price (env : Env) (market_id : ℤ) (form : TradeForm)
    (fs : Store) (side : MarketSide) (position : Pos)
    (hside : MarketSide.fromStr form.side = Except.ok side)
    (hfind : find_by_user_market_side env.positions env.user.id market_id side =
      some position)
    (hok : (sell_shares env market_id form fs).1 = Except.ok ()) :
    (sell_shares env market_id form fs).2.positions =
      position_repo_update env.positions position.id
        (position.shares - form.shares) position.avg_price env.now := by
  unfold sell_shares at hok ⊢
  simp only [hside, hfind] at hok ⊢
  by_cases h1 : form.shares ≤ 0
  · rw [if_pos h1] at hok
    exact absurd hok (by simp)
  rw [if_neg h1] at hok ⊢
  by_cases h2 : market_id ≠ env.market.id
  · rw [if_pos h2] at hok
    exact absurd hok (by simp)
  rw [if_neg h2] at hok ⊢
  by_cases h3 : (!env.market.can_trade env.now) = true
  · rw [if_pos h3] at hok
    exact absurd hok (by simp)
  rw [if_neg h3] at hok ⊢
  by_cases h4 : position.shares < form.shares
  · rw [if_pos h4] at hok
    exact absurd hok (by simp)
  rw [if_neg h4] at hok ⊢
  cases hsp : LmsrPricing.calculate_sell_proceeds env.market.q_yes
      env.market.q_no form.shares side env.market.liquidity_param with
  | error e =>
    simp only [hsp] at hok
    exact absurd hok (by simp)
  | ok proceeds =>
    simp only [hsp] at hok ⊢
    by_cases h5 : (!fs.add_ok) = true
    · rw [if_pos h5] at hok
      exact absurd hok (by simp)
    rw [if_neg h5] at hok ⊢
    by_cases h6 : (!fs.update_shares_ok) = true
    · rw [if_pos h6] at hok
      exact absurd hok (by simp)
    rw [if_neg h6] at hok ⊢
    have hrem : position.remove_shares form.shares env.now =
        Except.ok
          { position with
            shares := position.shares - form.shares
            updated_at := env.now } := by
      unfold Pos.remove_shares
      rw [if_neg h4]
    simp only [hrem] at hok ⊢
    have hmem : position ∈ env.positions := by
      unfold find_by_user_market_side at hfind
      exact List.mem_of_find?_eq_some hfind
    have hany : (env.positions.any fun p =>
        decide (p.id = position.id)) = true :=
      List.any_eq_true.mpr ⟨position, hmem, by simp⟩
    by_cases hsnap : fs.snapshot_ok = true
    · simp only [hsnap, if_true, hany] at hok ⊢
      by_cases h7 : (!fs.update_pos_ok) = true
      · rw [if_pos h7] at hok
        exact absurd hok (by simp)
      rw [if_neg h7] at hok ⊢
      simp
    · simp only [hsnap, if_false, Bool.false_eq_true, hany] at hok ⊢
      by_cases h7 : (!fs.update_pos_ok) = true
      · rw [if_pos h7] at hok
        exact absurd hok (by simp)
      rw [if_neg h7] at hok ⊢
      simp

/-- A sell request succeeds when every guard passes and every store write is
available. -/
theorem sell_shares_ok_of (env : Env) (market_id : ℤ) (form : TradeForm)
    (fs : Store) (side : MarketSide) (position : Pos) (proceeds : ℝ)
    (hside : MarketSide.fromStr form.side = Except.ok side)
    (h1 : ¬ form.shares ≤ 0)
    (h2 : market_id = env.market.id)
    (h3 : env.market.can_trade env.now = true)
    (hfind : find_by_user_market_side env.positions env.user.id market_id side =
      some position)
    (h4 : ¬ position.shares < form.shares)
    (hsp : LmsrPricing.calculate_sell_proceeds env.market.q_yes env.market.q_no
      form.shares side env.market.liquidity_param = Except.ok proceeds)
    (ha : fs.add_ok = true) (hu : fs.update_shares_ok = true)
    (hp : fs.update_pos_ok = true) :
    (sell_shares env market_id form fs).1 = Except.ok () := by
  have hrem : position.remove_shares form.shares env.now =
      Except.ok
        { position with
          shares := position.shares - form.shares
          updated_at := env.now } := by
    unfold Pos.remove_shares
    rw [if_neg h4]
  have hmem : position ∈ env.positions := by
    unfold find_by_user_market_side at hfind
    exact List.mem_of_find?_eq_some hfind
  have hany : (env.positions.any fun p =>
      decide (p.id = position.id)) = true :=
    List.any_eq_true.mpr ⟨position, hmem, by simp⟩
  have h2' : ¬ (market_id ≠ env.market.id) := by simp [h2]
  unfold sell_shares
  simp only [hside, hfind, hsp, hrem, if_neg h1, if_neg h2', if_neg h4, h3,
    ha, hu, hp, hany, Bool.not_true, Bool.false_eq_true, if_false]
  by_cases hsnap : fs.snapshot_ok = true <;>
    simp [hsnap, hany, if_neg h4]

/-- Witness for C8: user 7 sells 3 of their 5 YES shares on an open market
with `q_yes = 10`, `q_no = 2`, `b = 1`; the sell succeeds and the stored row
keeps `avg_price = 3/10` while `shares` drops to `5 - 3`. -/
theorem C8_witness :
    MarketSide.fromStr "yes" = Except.ok MarketSide.Yes ∧
      find_by_user_market_side (sampleEnv 10 2 1 5 (3/10) 100).positions
          (sampleEnv 10 2 1 5 (3/10) 100).user.id 1 MarketSide.Yes =
        some (samplePos 5 (3/10)) ∧
      (sell_shares (sampleEnv 10 2 1 5 (3/10) 100) 1
          { shares := 3, side := "yes" } Store.all_ok).1 = Except.ok () ∧
      (sell_shares (sampleEnv 10 2 1 5 (3/10) 100) 1
          { shares := 3, side := "yes" } Store.all_ok).2.positions =
        position_repo_update (sampleEnv 10 2 1 5 (3/10) 100).positions
          (samplePos 5 (3/10)).id ((samplePos 5 (3/10)).shares - 3)
          (samplePos 5 (3/10)).avg_price (sampleEnv 10 2 1 5 (3/10) 100).now := by
  have hside : MarketSide.fromStr "yes" = Except.ok MarketSide.Yes := by decide
  have hfind : find_by_user_market_side (sampleEnv 10 2 1 5 (3/10) 100).positions
      (sampleEnv 10 2 1 5 (3/10) 100).user.id 1 MarketSide.Yes =
      some (samplePos 5 (3/10)) := rfl
  have hmono : LmsrPricing.cost_function 7 2 1 ≤
      LmsrPricing.cost_function 10 2 1 :=
    cost_function_mono_left one_pos (by norm_num)
  have hsp : LmsrPricing.calculate_sell_proceeds 10 2 3 MarketSide.Yes 1 =
      Except.ok (LmsrPricing.cost_function 10 2 1 -
        LmsrPricing.cost_function 7 2 1) := by
    unfold LmsrPricing.calculate_sell_proceeds
    rw [if_neg (by norm_num : ¬ (3:ℝ) ≤ 0), if_neg (by norm_num : ¬ (1:ℝ) ≤ 0)]
    simp only []
    rw [if_neg (by norm_num : ¬ (10:ℝ) < 3)]
    norm_num
    intro hlt
    exact absurd hlt (not_lt.mpr hmono)
  have hok : (sell_shares (sampleEnv 10 2 1 5 (3/10) 100) 1
      { shares := 3, side := "yes" } Store.all_ok).1 = Except.ok () :=
    sell_shares_ok_of (sampleEnv 10 2 1 5 (3/10) 100) 1
      { shares := 3, side := "yes" } Store.all_ok MarketSide.Yes
      (samplePos 5 (3/10)) _ hside (by norm_num) rfl rfl hfind
      (by norm_num [samplePos]) hsp rfl rfl rfl
  exact ⟨hside, hfind, hok,
    C8_sell_keeps_avg_price (sampleEnv 10 2 1 5 (3/10) 100) 1
      { shares := 3, side := "yes" } Store.all_ok MarketSide.Yes
      (samplePos 5 (3/10)) hside hfind hok⟩

/-- When every guard passes, the balance debit commits, and then the
outstanding-shares write fails, the buy handler returns an error with the
user's balance already debited and everything else untouched: the store is
left in a partially committed state. -/
theorem buy_shares_partial_commit (env : Env) (market_id : ℤ)
    (form : TradeForm) (fs : Store) (side : MarketSide) (cost : ℝ)
    (hside : MarketSide.fromStr form.side = Except.ok side)
    (h1 : ¬ form.shares ≤ 0)
    (h2 : market_id = env.market.id)
    (h3 : env.market.can_trade env.now = true)
    (hcost : LmsrPricing.calculate_buy_cost env.market.q_yes env.market.q_no
      form.shares side env.market.liquidity_param = Except.ok cost)
    (haff : cost ≤ env.user.balance)
    (hd : fs.deduct_ok = true)
    (hus : fs.update_shares_ok = false) :
    buy_shares env market_id form fs =
      (Except.error "Error updating outstanding shares: store unavailable",
        { env with user := { env.user with balance := env.user.balance - cost } }) := by
  have h2' : ¬ (market_id ≠ env.market.id) := by simp [h2]
  unfold buy_shares
  simp only [hside, hcost, if_neg h1, if_neg h2', h3, hd, hus, Bool.not_true,
    Bool.not_false, Bool.false_eq_true, if_false, if_true]
  rw [if_neg (not_not_intro haff), if_neg (not_lt.mpr haff)]

/-- C1 is false of the code (and the spec flags this as its section 9 open
question): the five step-5 mutations are issued as independent store writes
with no transaction.  Concretely, user 7 (balance 1000) buys 10 YES on the
fresh market (`q_yes = q_no = 0`, `b = 100`); the balance debit commits and
then the outstanding-shares write fails, so the handler returns an error with
the balance strictly reduced while `q_yes`, `q_no`, the positions table and
the snapshot table are all unchanged. -/
theorem C1_partial_commit_demo :
    (buy_shares (sampleEnvNoPos 0 0 100 1000) 1 { shares := 10, side := "yes" }
          { deduct_ok := true, add_ok := true, update_shares_ok := false,
            snapshot_ok := true, find_pos_ok := true, update_pos_ok := true }).1 =
        Except.error "Error updating outstanding shares: store unavailable" ∧
      (buy_shares (sampleEnvNoPos 0 0 100 1000) 1 { shares := 10, side := "yes" }
          { deduct_ok := true, add_ok := true, update_shares_ok := false,
            snapshot_ok := true, find_pos_ok := true, update_pos_ok := true }).2.user.balance <
        (sampleEnvNoPos 0 0 100 1000).user.balance ∧
      (buy_shares (sampleEnvNoPos 0 0 100 1000) 1 { shares := 10, side := "yes" }
          { deduct_ok := true, add_ok := true, update_shares_ok := false,
            snapshot_ok := true, find_pos_ok := true, update_pos_ok := true }).2.market.q_yes =
        (sampleEnvNoPos 0 0 100 1000).market.q_yes ∧
      (buy_shares (sampleEnvNoPos 0 0 100 1000) 1 { shares := 10, side := "yes" }
          { deduct_ok := true, add_ok := true, update_shares_ok := false,
            snapshot_ok := true, find_pos_ok := true, update_pos_ok := true }).2.market.q_no =
        (sampleEnvNoPos 0 0 100 1000).market.q_no ∧
      (buy_shares (sampleEnvNoPos 0 0 100 1000) 1 { shares := 10, side := "yes" }
          { deduct_ok := true, add_ok := true, update_shares_ok := false,
            snapshot_ok := true, find_pos_ok := true, update_pos_ok := true }).2.positions =
        (sampleEnvNoPos 0 0 100 1000).positions ∧
      (buy_shares (sampleEnvNoPos 0 0 100 1000) 1 { shares := 10, side := "yes" }
          { deduct_ok := true, add_ok := true, update_shares_ok := false,
            snapshot_ok := true, find_pos_ok := true, update_pos_ok := true }).2.snapshots =
        (sampleEnvNoPos 0 0 100 1000).snapshots := by
  have hb : (0:ℝ) < 100 := by norm_num
  have hmono : LmsrPricing.cost_function 0 0 100 ≤
      LmsrPricing.cost_function 10 0 100 :=
    cost_function_mono_left hb (by norm_num)
  have hcost : LmsrPricing.calculate_buy_cost 0 0 10 MarketSide.Yes 100 =
      Except.ok (LmsrPricing.cost_function 10 0 100 -
        LmsrPricing.cost_function 0 0 100) := by
    unfold LmsrPricing.calculate_buy_cost
    rw [if_neg (by norm_num : ¬ (10:ℝ) ≤ 0),
      if_neg (by norm_num : ¬ (100:ℝ) ≤ 0)]
    norm_num
    intro hlt
    exact absurd hlt (not_lt.mpr hmono)
  have hle : LmsrPricing.cost_function 10 0 100 -
      LmsrPricing.cost_function 0 0 100 ≤ 10 := by
    have h := @cost_function_add_le 100 hb 0 0 10 (by norm_num)
    norm_num at h
    linarith
  have hpos : 0 < LmsrPricing.cost_function 10 0 100 -
      LmsrPricing.cost_function 0 0 100 :=
    sub_pos.mpr (cost_function_strictMono_left hb (by norm_num))
  have hrun := buy_shares_partial_commit (sampleEnvNoPos 0 0 100 1000) 1
    { shares := 10, side := "yes" }
    { deduct_ok := true, add_ok := true, update_shares_ok := false,
      snapshot_ok := true, find_pos_ok := true, update_pos_ok := true }
    MarketSide.Yes
    (LmsrPricing.cost_function 10 0 100 - LmsrPricing.cost_function 0 0 100)
    (by decide) (by norm_num) rfl rfl hcost (by norm_num [sampleEnvNoPos]; linarith)
    rfl rfl
  rw [hrun]
  refine ⟨rfl, ?_, rfl, rfl, rfl, rfl⟩
  show (sampleEnvNoPos 0 0 100 1000).user.balance -
      (LmsrPricing.cost_function 10 0 100 - LmsrPricing.cost_function 0 0 100) <
    (sampleEnvNoPos 0 0 100 1000).user.balance
  linarith

/-- A successful YES sell quote implies the amount sold is bounded by the
YES side's outstanding count (the `current_shares` guard). -/
theorem sell_proceeds_le_q_yes {q_yes q_no shares b w : ℝ}
    (h : LmsrPricing.calculate_sell_proceeds q_yes q_no shares MarketSide.Yes b
      = Except.ok w) :
    shares ≤ q_yes := by
  unfold LmsrPricing.calculate_sell_proceeds at h
  by_contra hc
  push_neg at hc
  split_ifs at h <;> simp_all

/-- A successful NO sell quote implies the amount sold is bounded by the NO
side's outstanding count. -/
theorem sell_proceeds_le_q_no {q_yes q_no shares b w : ℝ}
    (h : LmsrPricing.calculate_sell_proceeds q_yes q_no shares MarketSide.No b
      = Except.ok w) :
    shares ≤ q_no := by
  unfold LmsrPricing.calculate_sell_proceeds at h
  by_contra hc
  push_neg at hc
  split_ifs at h <;> simp_all

/-- The position-upsert tail of the buy handler never modifies the market
record. -/
theorem commit_position_market (env : Env) (p : Pos) (sh c : ℝ) (fs : Store) :
    (commit_position env p sh c fs).2.market = env.market := by
  unfold commit_position
  dsimp only
  split_ifs <;> rfl

/-- Every buy leaves both outstanding-share counters non-negative. -/
theorem buy_shares_q_nonneg (env : Env) (market_id : ℤ) (form : TradeForm)
    (fs : Store) (hy : 0 ≤ env.market.q_yes) (hn : 0 ≤ env.market.q_no) :
    0 ≤ (buy_shares env market_id form fs).2.market.q_yes ∧
      0 ≤ (buy_shares env market_id form fs).2.market.q_no := by
  unfold buy_shares
  by_cases h1 : form.shares ≤ 0
  · rw [if_pos h1]
    exact ⟨hy, hn⟩
  rw [if_neg h1]
  cases hside : MarketSide.fromStr form.side with
  | error e =>
    simp only [hside]
    exact ⟨hy, hn⟩
  | ok side =>
    simp only [hside]
    by_cases h2 : market_id ≠ env.market.id
    · rw [if_pos h2]
      exact ⟨hy, hn⟩
    rw [if_neg h2]
    by_cases h3 : (!env.market.can_trade env.now) = true
    · rw [if_pos h3]
      exact ⟨hy, hn⟩
    rw [if_neg h3]
    cases hcost : LmsrPricing.calculate_buy_cost env.market.q_yes
        env.market.q_no form.shares side env.market.liquidity_param with
    | error e =>
      simp only [hcost]
      exact ⟨hy, hn⟩
    | ok cost =>
      simp only [hcost]
      by_cases h5 : ¬ env.user.can_afford cost
      · rw [if_pos h5]
        exact ⟨hy, hn⟩
      rw [if_neg h5]
      by_cases h6 : (!fs.deduct_ok) = true
      · rw [if_pos h6]
        exact ⟨hy, hn⟩
      rw [if_neg h6]
      by_cases h7 : env.user.balance < cost
      · rw [if_pos h7]
        exact ⟨hy, hn⟩
      rw [if_neg h7]
      by_cases h8 : (!fs.update_shares_ok) = true
      · rw [if_pos h8]
        exact ⟨hy, hn⟩
      rw [if_neg h8]
      have hsh : 0 < form.shares := not_le.mp h1
      cases side with
      | Yes =>
        dsimp only
        by_cases h10 : fs.snapshot_ok = true <;>
          (first | rw [if_pos h10] | rw [if_neg h10]) <;>
          dsimp only <;>
          (by_cases h9 : (!fs.find_pos_ok) = true <;>
            (first | rw [if_pos h9] | rw [if_neg h9]) <;>
            (first
              | (constructor <;> dsimp only <;> linarith)
              | (cases hfp : find_by_user_market_side env.positions
                    env.user.id market_id MarketSide.Yes <;>
                  simp only [hfp] <;> rw [commit_position_market] <;>
                  constructor <;> dsimp only <;> linarith)))
      | No =>
        dsimp only
        by_cases h10 : fs.snapshot_ok = true <;>
          (first | rw [if_pos h10] | rw [if_neg h10]) <;>
          dsimp only <;>
          (by_cases h9 : (!fs.find_pos_ok) = true <;>
            (first | rw [if_pos h9] | rw [if_neg h9]) <;>
            (first
              | (constructor <;> dsimp only <;> linarith)
              | (cases hfp : find_by_user_market_side env.positions
                    env.user.id market_id MarketSide.No <;>
                  simp only [hfp] <;> rw [commit_position_market] <;>
                  constructor <;> dsimp only <;> linarith)))

/-- Every sell leaves both outstanding-share counters non-negative: the
supply guard inside `calculate_sell_proceeds` bounds the decrement. -/
theorem sell_shares_q_nonneg (env : Env) (market_id : ℤ) (form : TradeForm)
    (fs : Store) (hy : 0 ≤ env.market.q_yes) (hn : 0 ≤ env.market.q_no) :
    0 ≤ (sell_shares env market_id form fs).2.market.q_yes ∧
      0 ≤ (sell_shares env market_id form fs).2.market.q_no := by
  unfold sell_shares
  by_cases h1 : form.shares ≤ 0
  · rw [if_pos h1]
    exact ⟨hy, hn⟩
  rw [if_neg h1]
  cases hside : MarketSide.fromStr form.side with
  | error e =>
    simp only [hside]
    exact ⟨hy, hn⟩
  | ok side =>
    simp only [hside]
    by_cases h2 : market_id ≠ env.market.id
    · rw [if_pos h2]
      exact ⟨hy, hn⟩
    rw [if_neg h2]
    by_cases h3 : (!env.market.can_trade env.now) = true
    · rw [if_pos h3]
      exact ⟨hy, hn⟩
    rw [if_neg h3]
    cases hfind : find_by_user_market_side env.positions env.user.id market_id
        side with
    | none =>
      simp only [hfind]
      exact ⟨hy, hn⟩
    | some position =>
      simp only [hfind]
      by_cases h4 : position.shares < form.shares
      · rw [if_pos h4]
        exact ⟨hy, hn⟩
      rw [if_neg h4]
      cases hsp : LmsrPricing.calculate_sell_proceeds env.market.q_yes
          env.market.q_no form.shares side env.market.liquidity_param with
      | error e =>
        simp only [hsp]
        exact ⟨hy, hn⟩
      | ok proceeds =>
        simp only [hsp]
        by_cases h5 : (!fs.add_ok) = true
        · rw [if_pos h5]
          exact ⟨hy, hn⟩
        rw [if_neg h5]
        by_cases h6 : (!fs.update_shares_ok) = true
        · rw [if_pos h6]
          exact ⟨hy, hn⟩
        rw [if_neg h6]
        cases side with
        | Yes =>
          have hsup := sell_proceeds_le_q_yes hsp
          dsimp only
          by_cases h10 : fs.snapshot_ok = true <;>
            (first | rw [if_pos h10] | rw [if_neg h10]) <;>
            dsimp only <;>
            constructor <;> (repeat' split) <;> dsimp only <;> linarith
        | No =>
          have hsup := sell_proceeds_le_q_no hsp
          dsimp only
          by_cases h10 : fs.snapshot_ok = true <;>
            (first | rw [if_pos h10] | rw [if_neg h10]) <;>
            dsimp only <;>
            constructor <;> (repeat' split) <;> dsimp only <;> linarith

/-- C6: starting from non-negative outstanding counters, every buy and every
sell (committed or aborted at any store step) leaves both counters
non-negative; and a sell of more shares than the side's outstanding count —
that otherwise passes the open-market and holdings guards — fails with the
supply error, leaving the whole store unchanged. -/
theorem C6_invariant_and_supply :
    (∀ (env : Env) (market_id : ℤ) (form : TradeForm) (fs : Store),
        0 ≤ env.market.q_yes → 0 ≤ env.market.q_no →
        0 ≤ (buy_shares env market_id form fs).2.market.q_yes ∧
          0 ≤ (buy_shares env market_id form fs).2.market.q_no) ∧
      (∀ (env : Env) (market_id : ℤ) (form : TradeForm) (fs : Store),
        0 ≤ env.market.q_yes → 0 ≤ env.market.q_no →
        0 ≤ (sell_shares env market_id form fs).2.market.q_yes ∧
          0 ≤ (sell_shares env market_id form fs).2.market.q_no) ∧
      (∀ (env : Env) (market_id : ℤ) (form : TradeForm) (fs : Store)
          (side : MarketSide) (position : Pos),
        MarketSide.fromStr form.side = Except.ok side →
        ¬ form.shares ≤ 0 →
        market_id = env.market.id →
        env.market.can_trade env.now = true →
        find_by_user_market_side env.positions env.user.id market_id side =
          some position →
        ¬ position.shares < form.shares →
        ¬ env.market.liquidity_param ≤ 0 →
        side_q env.market side < form.shares →
        (sell_shares env market_id form fs).1 =
            Except.error "Error calculating proceeds: Not enough shares to sell" ∧
          (sell_shares env market_id form fs).2 = env) := by
  refine ⟨fun env mid form fs hy hn => buy_shares_q_nonneg env mid form fs hy hn,
    fun env mid form fs hy hn => sell_shares_q_nonneg env mid form fs hy hn, ?_⟩
  intro env market_id form fs side position hside h1 h2 h3 hfind h4 hb hlt
  have h2' : ¬ (market_id ≠ env.market.id) := by simp [h2]
  have hsp : LmsrPricing.calculate_sell_proceeds env.market.q_yes
      env.market.q_no form.shares side env.market.liquidity_param =
      Except.error "Not enough shares to sell" := by
    unfold LmsrPricing.calculate_sell_proceeds
    rw [if_neg h1, if_neg hb]
    cases side with
    | Yes =>
      dsimp only [side_q] at hlt
      dsimp only
      rw [if_pos hlt]
    | No =>
      dsimp only [side_q] at hlt
      dsimp only
      rw [if_pos hlt]
  unfold sell_shares
  simp only [hside, hfind, hsp, if_neg h1, if_neg h2', h3, Bool.not_true,
    Bool.false_eq_true, if_false, if_neg h4]
  exact ⟨by decide, trivial⟩

/-- Witness for C6: an open market with `q_yes = 1`, `q_no = 2`, `b = 1`
where user 7 holds 5 YES shares and submits a trade of 3 shares: both
handlers keep the counters non-negative, and a sell of 3 exceeds the YES
outstanding count of 1 and fails with the supply error, leaving the store
unchanged. -/
theorem C6_witness :
    (0:ℝ) ≤ (sampleEnv 1 2 1 5 (1/2) 100).market.q_yes ∧
      (0:ℝ) ≤ (sampleEnv 1 2 1 5 (1/2) 100).market.q_no ∧
      (0 ≤ (buy_shares (sampleEnv 1 2 1 5 (1/2) 100) 1
            { shares := 3, side := "yes" } Store.all_ok).2.market.q_yes ∧
        0 ≤ (buy_shares (sampleEnv 1 2 1 5 (1/2) 100) 1
            { shares := 3, side := "yes" } Store.all_ok).2.market.q_no) ∧
      (0 ≤ (sell_shares (sampleEnv 1 2 1 5 (1/2) 100) 1
            { shares := 3, side := "yes" } Store.all_ok).2.market.q_yes ∧
        0 ≤ (sell_shares (sampleEnv 1 2 1 5 (1/2) 100) 1
            { shares := 3, side := "yes" } Store.all_ok).2.market.q_no) ∧
      side_q (sampleEnv 1 2 1 5 (1/2) 100).market MarketSide.Yes < (3:ℝ) ∧
      ((sell_shares (sampleEnv 1 2 1 5 (1/2) 100) 1
            { shares := 3, side := "yes" } Store.all_ok).1 =
          Except.error "Error calculating proceeds: Not enough shares to sell" ∧
        (sell_shares (sampleEnv 1 2 1 5 (1/2) 100) 1
            { shares := 3, side := "yes" } Store.all_ok).2 =
          sampleEnv 1 2 1 5 (1/2) 100) := by
  refine ⟨by norm_num [sampleEnv, sampleMkt], by norm_num [sampleEnv, sampleMkt],
    C6_invariant_and_supply.1 (sampleEnv 1 2 1 5 (1/2) 100) 1
      { shares := 3, side := "yes" } Store.all_ok
      (by norm_num [sampleEnv, sampleMkt]) (by norm_num [sampleEnv, sampleMkt]),
    C6_invariant_and_supply.2.1 (sampleEnv 1 2 1 5 (1/2) 100) 1
      { shares := 3, side := "yes" } Store.all_ok
      (by norm_num [sampleEnv, sampleMkt]) (by norm_num [sampleEnv, sampleMkt]),
    by norm_num [side_q, sampleEnv, sampleMkt],
    C6_invariant_and_supply.2.2 (sampleEnv 1 2 1 5 (1/2) 100) 1
      { shares := 3, side := "yes" } Store.all_ok MarketSide.Yes
      (samplePos 5 (1/2)) (by decide) (by norm_num) rfl rfl rfl
      (by norm_num [samplePos]) (by norm_num [sampleEnv, sampleMkt])
      (by norm_num [side_q, sampleEnv, sampleMkt])⟩

end Market
